import Mathlib

/-
Verification of the data-quality-analyzer core (data_quality_analyzer/analyzer.py)
against its natural-language specification.

The analyzer loads a CSV into a pandas DataFrame and runs six guarded analysis
modules over it.  The embedding below models the loaded table as a list of
named, typed columns of nullable cells; numeric cells are modelled exactly as
rationals (the source computes with binary floats; all claims under scrutiny
are about exact arithmetic identities, counts and control flow, which the
rational model preserves).  pandas NaN results are modelled as `none`.
-/

set_option maxHeartbeats 1000000

namespace DQA

/-- Model of one cell of the loaded table: either the null marker (NaN in the
source), a numeric value (modelled exactly as a rational), or a non-numeric
value. -/
inductive Cell where
  | null : Cell
  | num : ℚ → Cell
  | str : String → Cell
deriving DecidableEq

/-- Dtype classification used by `select_dtypes(include=['int64','float64'])`
in the source: numeric columns versus everything else. -/
inductive ColType where
  | numeric : ColType
  | object : ColType
deriving DecidableEq

/-- A named, typed column of the loaded table. -/
structure Column where
  name : String
  ctype : ColType
  cells : List Cell
deriving DecidableEq

/-- The in-memory table built by `pd.read_csv`: named typed columns plus the
table row count (`len(self.df)` in the source). -/
structure DataFrame where
  cols : List Column
  nrows : ℕ
deriving DecidableEq

/-- Columns selected by `self.df.select_dtypes(include=['int64','float64'])`. -/
def numericCols (df : DataFrame) : List Column :=
  df.cols.filter (fun c => decide (c.ctype = ColType.numeric))

/-- Per-column null count: one entry of `self.df.isnull().sum()`. -/
def nullCount (c : Column) : ℕ :=
  c.cells.countP (fun x => decide (x = Cell.null))

/-- The non-null numeric values of a list of cells, in order. -/
def nnVals (cs : List Cell) : List ℚ :=
  cs.filterMap (fun x => match x with
    | Cell.num v => some v
    | _ => none)

/-- The non-null numeric values of a column, in order.  pandas reductions
(quantile, mean, skew, ...) skip NaN entries. -/
def nonNullNum (c : Column) : List ℚ :=
  nnVals c.cells

/-- Round a rational to the nearest integer, ties to even — the rounding used
by numpy / pandas `.round`. -/
def roundHalfEven (q : ℚ) : ℤ :=
  let f : ℤ := ⌊q⌋
  let r : ℚ := q - (f : ℚ)
  if r < 1/2 then f
  else if 1/2 < r then f + 1
  else if f % 2 = 0 then f else f + 1

/-- `.round(2)` of the source: round to 2 decimal places, ties to even. -/
def round2 (q : ℚ) : ℚ :=
  ((roundHalfEven (q * 100) : ℚ)) / 100

/-! ### Missing-Value module (`_missing_values_analysis`, analyzer.py 68-78)

The source builds, for every column, `Missing Count = isnull().sum()` and
`Missing Percentage = (isnull().sum() / len(df) * 100).round(2)`.  When the
table has 0 rows the column is empty, the division is 0/0 and numpy yields
NaN (warnings are suppressed at import); `none` models that NaN. -/

/-- One row of the Missing Values sheet. -/
structure MissingRow where
  name : String
  count : ℕ
  pct : Option ℚ
deriving DecidableEq

/-- The Missing Percentage entry of one column. -/
def missingPct (df : DataFrame) (c : Column) : Option ℚ :=
  if df.nrows = 0 then none
  else some (round2 ((nullCount c : ℚ) / (df.nrows : ℚ) * 100))

/-- The Missing Values sheet: one row per column of the table. -/
def missingRows (df : DataFrame) : List MissingRow :=
  df.cols.map (fun c => ⟨c.name, nullCount c, missingPct df c⟩)

/-! ### Duplicate module (`_duplicates_analysis`, analyzer.py 80-91)

`df.duplicated()` flags a row iff an identical earlier row exists, with NaN
comparing equal to NaN (the `Cell.null = Cell.null` equality of the model);
`len(df.drop_duplicates())` keeps exactly the unflagged first occurrences. -/

/-- One row of the table: the i-th cell of every column, in column order. -/
def dfRow (df : DataFrame) (i : ℕ) : List Cell :=
  df.cols.map (fun c => c.cells.getD i Cell.null)

/-- All rows of the table, in order. -/
def dfRows (df : DataFrame) : List (List Cell) :=
  (List.range df.nrows).map (dfRow df)

/-- `duplicated` marking: a row is flagged iff it already occurred, i.e. iff it
is a member of the accumulated set of rows seen so far. -/
def dupFlagsAux (seen : List (List Cell)) : List (List Cell) → List Bool
  | [] => []
  | r :: rs => decide (r ∈ seen) :: dupFlagsAux (r :: seen) rs

/-- The `df.duplicated()` boolean series. -/
def dupFlags (df : DataFrame) : List Bool :=
  dupFlagsAux [] (dfRows df)

/-- `Total Duplicates`: `df.duplicated().sum()`. -/
def dupCount (df : DataFrame) : ℕ :=
  (dupFlags df).count true

/-- `Total Unique Records`: `len(df.drop_duplicates())`.  `drop_duplicates`
keeps precisely the rows `duplicated()` leaves unflagged. -/
def uniqueCount (df : DataFrame) : ℕ :=
  (dupFlags df).count false

/-- `Duplicate Percentage`: `(duplicated().sum() / len(df) * 100).round(2)`,
NaN (none) on a 0-row table. -/
def dupPct (df : DataFrame) : Option ℚ :=
  if df.nrows = 0 then none
  else some (round2 ((dupCount df : ℚ) / (df.nrows : ℚ) * 100))

/-! ### Outlier module (`_outliers_analysis`, analyzer.py 110-130)

Per numeric column the source takes `Q1 = col.quantile(0.25)` and
`Q3 = col.quantile(0.75)` — linear-interpolation quantiles over the non-null
values (pandas default interpolation, NaN skipped; NaN result on an all-null
column) — and counts `(col < Q1 - 1.5*IQR) | (col > Q3 + 1.5*IQR)`.
Comparisons against NaN are false, so null cells are never counted, and with
NaN fences nothing is counted. -/

/-- Sort a list of rationals ascending. -/
def sortQ (xs : List ℚ) : List ℚ :=
  xs.insertionSort (fun a b => a ≤ b)

/-- pandas `Series.quantile(p)` with the default linear interpolation:
rank `h = p * (n-1)`, interpolate between the adjacent order statistics;
NaN (none) when no non-null value exists. -/
def quantile (xs : List ℚ) (p : ℚ) : Option ℚ :=
  let s := sortQ xs
  if s.length = 0 then none
  else
    let h : ℚ := p * ((s.length : ℚ) - 1)
    let i : ℕ := (⌊h⌋).toNat
    let lo := s.getD i 0
    let hi := s.getD (i + 1) lo
    some (lo + (h - (i : ℚ)) * (hi - lo))

/-- Lower Tukey fence `Q1 - 1.5*IQR` of a column; NaN (none) when the
quantiles are NaN. -/
def lowerFence (c : Column) : Option ℚ :=
  match quantile (nonNullNum c) (1/4), quantile (nonNullNum c) (3/4) with
  | some q1, some q3 => some (q1 - 3/2 * (q3 - q1))
  | _, _ => none

/-- Upper Tukey fence `Q3 + 1.5*IQR` of a column; NaN (none) when the
quantiles are NaN. -/
def upperFence (c : Column) : Option ℚ :=
  match quantile (nonNullNum c) (1/4), quantile (nonNullNum c) (3/4) with
  | some q1, some q3 => some (q3 + 3/2 * (q3 - q1))
  | _, _ => none

/-- One term of `(col < lower) | (col > upper)`: false on the null marker and
false against a NaN fence, exactly as float comparisons behave in the source. -/
def cellOutsideFences (lo hi : Option ℚ) (x : Cell) : Bool :=
  match x, lo, hi with
  | Cell.num v, some l, some u => decide (v < l) || decide (v > u)
  | _, _, _ => false

/-- `Outliers Count` of one column. -/
def outlierCount (c : Column) : ℕ :=
  c.cells.countP (cellOutsideFences (lowerFence c) (upperFence c))

/-- `Outliers Percentage` of one column:
`(outliers / len(df) * 100).round(2)`, with the whole-table row count as
denominator; NaN (none) on a 0-row table. -/
def outlierPct (df : DataFrame) (c : Column) : Option ℚ :=
  if df.nrows = 0 then none
  else some (round2 ((outlierCount c : ℚ) / (df.nrows : ℚ) * 100))

/-- One row of the Outliers sheet. -/
structure OutlierRow where
  name : String
  count : ℕ
  pct : Option ℚ
deriving DecidableEq

/-- The Outliers sheet: one row per numeric column. -/
def outlierRows (df : DataFrame) : List OutlierRow :=
  (numericCols df).map (fun c => ⟨c.name, outlierCount c, outlierPct df c⟩)

/-! ### Distribution module (`_data_distribution`, analyzer.py 93-108)

The source reports `skew()`, `kurtosis()`, `mean()`, `median()`, `std()` per
numeric column, all pandas nan-skipping reductions.  pandas `nanskew` returns
NaN when the non-null count is below 3 and 0 when the centered second moment
m2 is 0; `nankurt` (Fisher, bias-adjusted) returns NaN when the count is below
4 and 0 when its denominator `(n-2)*(n-3)*m2^2` is 0.  The skewness value
`n*sqrt(n-1)/(n-2) * m3/m2^1.5` is irrational in general, so the embedding
carries its signed square `t*|t|` — a strictly monotone, injective encoding of
the real value that stays inside ℚ; likewise `std` is carried as the sample
variance whose square root the source reports. -/

/-- Mean of the non-null values (`Series.mean()`); NaN (none) when empty. -/
def meanQ (xs : List ℚ) : Option ℚ :=
  if xs.length = 0 then none else some (xs.sum / (xs.length : ℚ))

/-- Median of the non-null values (`Series.median()`): middle order statistic,
or the average of the two middle ones; NaN (none) when empty. -/
def medianQ (xs : List ℚ) : Option ℚ :=
  let s := sortQ xs
  if s.length = 0 then none
  else if s.length % 2 = 1 then some (s.getD (s.length / 2) 0)
  else some ((s.getD (s.length / 2 - 1) 0 + s.getD (s.length / 2) 0) / 2)

/-- Centered power sum `m_k = sum (x - mean)^k` over a list with given mean. -/
def centeredSum (m : ℚ) (k : ℕ) (xs : List ℚ) : ℚ :=
  (xs.map (fun x => (x - m) ^ k)).sum

/-- pandas `nanskew`, carried as the signed square of the reported value:
NaN (none) for fewer than 3 values, 0 for zero variance, else
`sign(m3) * (n^2*(n-1)/(n-2)^2 * m3^2 / m2^3)`. -/
def skewEnc (xs : List ℚ) : Option ℚ :=
  let n := xs.length
  if n < 3 then none
  else
    let m := xs.sum / (n : ℚ)
    let m2 := centeredSum m 2 xs
    let m3 := centeredSum m 3 xs
    if m2 = 0 then some 0
    else some (((n : ℚ) ^ 2 * ((n : ℚ) - 1) / ((n : ℚ) - 2) ^ 2) * (m3 * |m3|) / m2 ^ 3)

/-- pandas `nankurt` (excess kurtosis, bias-adjusted), exact in ℚ:
NaN (none) for fewer than 4 values, 0 when the denominator
`(n-2)*(n-3)*m2^2` is 0, else `n*(n+1)*(n-1)*m4 / denom - 3*(n-1)^2/((n-2)*(n-3))`. -/
def kurtQ (xs : List ℚ) : Option ℚ :=
  let n := xs.length
  if n < 4 then none
  else
    let m := xs.sum / (n : ℚ)
    let m2 := centeredSum m 2 xs
    let m4 := centeredSum m 4 xs
    let denom := ((n : ℚ) - 2) * ((n : ℚ) - 3) * m2 ^ 2
    if denom = 0 then some 0
    else some ((n : ℚ) * ((n : ℚ) + 1) * ((n : ℚ) - 1) * m4 / denom
      - 3 * ((n : ℚ) - 1) ^ 2 / (((n : ℚ) - 2) * ((n : ℚ) - 3)))

/-- Sample variance (`Series.std()` squared, ddof=1): NaN (none) for fewer
than 2 values. -/
def varSample (xs : List ℚ) : Option ℚ :=
  if xs.length < 2 then none
  else some (centeredSum (xs.sum / (xs.length : ℚ)) 2 xs / ((xs.length : ℚ) - 1))

/-- One row of the Distribution Stats sheet (Std carried as its square). -/
structure DistRow where
  name : String
  skew : Option ℚ
  kurt : Option ℚ
  mean : Option ℚ
  median : Option ℚ
  varS : Option ℚ
deriving DecidableEq

/-- The Distribution Stats sheet: one row per numeric column. -/
def distRows (df : DataFrame) : List DistRow :=
  (numericCols df).map (fun c =>
    ⟨c.name, skewEnc (nonNullNum c), kurtQ (nonNullNum c),
      meanQ (nonNullNum c), medianQ (nonNullNum c), varSample (nonNullNum c)⟩)

/-! ### Correlation module (`_correlation_analysis`, analyzer.py 132-141)

`df[numerical_cols].corr()` computes, for every ordered pair of numeric
columns, the Pearson coefficient over the rows where both entries are
non-null (pairwise complete observations, `min_periods = 1`): with centered
sums sxx, syy, cxy over those rows, the coefficient is `cxy / sqrt(sxx*syy)`,
NaN when no complete row exists or when `sxx*syy = 0`.  The square root is
irrational in general, so each entry is carried as the signed square
`t*|t| = cxy*|cxy| / (sxx*syy)` of the reported value — a strictly monotone,
injective encoding (so symmetry and the value 1.0 are faithfully preserved). -/

/-- Rows where both columns are non-null, as value pairs, in row order. -/
def pairedVals (x y : List Cell) : List (ℚ × ℚ) :=
  (x.zip y).filterMap (fun pr => match pr.1, pr.2 with
    | Cell.num a, Cell.num b => some (a, b)
    | _, _ => none)

/-- Pearson computation over a list of complete-observation pairs, as done by
the pandas `nancorr` kernel: centered sums sxx, syy, cxy, NaN (none) when no
pair exists or the divisor vanishes, else the coefficient
`cxy / sqrt(sxx*syy)` — carried as its signed square to stay in ℚ. -/
def corrEncAux (ps : List (ℚ × ℚ)) : Option ℚ :=
  if ps.length = 0 then none
  else
    let mx : ℚ := (ps.map Prod.fst).sum / (ps.length : ℚ)
    let my : ℚ := (ps.map Prod.snd).sum / (ps.length : ℚ)
    let sxx : ℚ := (ps.map (fun p => (p.1 - mx) ^ 2)).sum
    let syy : ℚ := (ps.map (fun p => (p.2 - my) ^ 2)).sum
    let cxy : ℚ := (ps.map (fun p => (p.1 - mx) * (p.2 - my))).sum
    if sxx * syy = 0 then none
    else some (cxy * |cxy| / (sxx * syy))

/-- One entry of `df.corr()`, as the signed square of the Pearson coefficient
over pairwise complete rows; NaN (none) when no complete row exists or either
pairwise centered sum of squares vanishes. -/
def corrEnc (x y : List Cell) : Option ℚ :=
  corrEncAux (pairedVals x y)

/-- The correlation matrix over the numeric columns, entries encoded as
signed squares of the Pearson coefficients (NaN as none). -/
def corrMatrix (df : DataFrame) : List (List (Option ℚ)) :=
  (numericCols df).map (fun x => (numericCols df).map (fun y => corrEnc x.cells y.cells))

/-- Centered sum of squares of the non-null values of a list of cells: zero
exactly for zero-variance data. -/
def varSumCells (cs : List Cell) : ℚ :=
  centeredSum ((nnVals cs).sum / ((nnVals cs).length : ℚ)) 2 (nnVals cs)

/-- Centered sum of squares of a column's non-null values: zero exactly for
the zero-variance columns. -/
def colVarSum (c : Column) : ℚ :=
  varSumCells c.cells

/-! ### Column Statistics module (`_basic_info`, analyzer.py 45-66)

One guarded region first builds the per-column dtype summary, then
`df.describe(include='all').T`, and only then writes both sheets.
`describe` raises `ValueError: Cannot describe a DataFrame without columns`
on a zero-column table; the dtype summary itself never raises.  The reported
memory footprint is environment-dependent and no claim concerns it, so it is
not part of the model; `std` in describe is again carried as the sample
variance whose square root the source reports. -/

/-- One row of the Data Types sheet: column name, dtype class, `nunique()`
(count of distinct non-null values). -/
structure DtypeRow where
  name : String
  ctype : ColType
  nunique : ℕ
deriving DecidableEq

/-- The Data Types sheet (lines 49-57): one row per column, every dtype. -/
def dtypesInfo (df : DataFrame) : List DtypeRow :=
  df.cols.map (fun c =>
    ⟨c.name, c.ctype, ((c.cells.filter (fun x => decide (x ≠ Cell.null))).dedup).length⟩)

/-- One row of the Basic Statistics sheet (numeric fields only populated for
numeric columns, as with `describe(include='all')`). -/
structure StatsRow where
  name : String
  count : ℕ
  mean : Option ℚ
  minV : Option ℚ
  q25 : Option ℚ
  median : Option ℚ
  q75 : Option ℚ
  maxV : Option ℚ
deriving DecidableEq

/-- Descriptive statistics of one column. -/
def statsRow (c : Column) : StatsRow :=
  match c.ctype with
  | ColType.numeric =>
    let v := nonNullNum c
    ⟨c.name, v.length, meanQ v, (sortQ v).head?, quantile v (1/4),
      medianQ v, quantile v (3/4), (sortQ v).getLast?⟩
  | ColType.object =>
    ⟨c.name, c.cells.countP (fun x => decide (x ≠ Cell.null)),
      none, none, none, none, none, none⟩

/-- `df.describe(include='all')` (line 60): fails on a zero-column table. -/
def describe (df : DataFrame) : Except String (List StatsRow) :=
  if df.cols.length = 0 then Except.error "Cannot describe a DataFrame without columns"
  else Except.ok (df.cols.map statsRow)

/-! ### Pipeline orchestrator (`analyze`, analyzer.py 25-43)

Each of the six analysis methods wraps its whole body — computation and sheet
writing — in `try/except`, printing a diagnostic naming the module on failure
and writing nothing for that module; `analyze` then simply calls the six in a
fixed order.  A module is modelled as a name plus a function producing
`Except cause (Option block)`: `ok (some b)` writes block b, `ok none`
completes without writing a sheet (the `if len(numerical_cols) > 0` guards of
distribution and correlation), `error e` is a raised-and-caught exception. -/

/-- One module's written output. -/
inductive Block where
  | basicInfo : List DtypeRow → List StatsRow → Block
  | missing : List MissingRow → Block
  | dups : ℕ → Option ℚ → ℕ → Block
  | dist : List DistRow → Block
  | outliers : List OutlierRow → Block
  | corr : List (List (Option ℚ)) → Block
deriving DecidableEq

/-- A named analysis module, as invoked by `analyze`. -/
def AnalysisModule : Type :=
  String × (DataFrame → Except String (Option Block))

/-- `_basic_info` body: build the dtype sheet, build describe, then write
both (so a describe failure suppresses the Data Types sheet too). -/
def basicInfoModule (df : DataFrame) : Except String (Option Block) :=
  let dt := dtypesInfo df
  match describe df with
  | Except.error e => Except.error e
  | Except.ok st => Except.ok (some (Block.basicInfo dt st))

/-- `_missing_values_analysis` body. -/
def missingValuesModule (df : DataFrame) : Except String (Option Block) :=
  Except.ok (some (Block.missing (missingRows df)))

/-- `_duplicates_analysis` body. -/
def duplicatesModule (df : DataFrame) : Except String (Option Block) :=
  Except.ok (some (Block.dups (dupCount df) (dupPct df) (uniqueCount df)))

/-- `_data_distribution` body: writes a sheet only when a numeric column
exists, succeeding either way. -/
def distributionModule (df : DataFrame) : Except String (Option Block) :=
  if (numericCols df).length > 0 then Except.ok (some (Block.dist (distRows df)))
  else Except.ok none

/-- `_outliers_analysis` body: the sheet is written even when no numeric
column exists (an empty frame is still written). -/
def outliersModule (df : DataFrame) : Except String (Option Block) :=
  Except.ok (some (Block.outliers (outlierRows df)))

/-- `_correlation_analysis` body: writes the matrix only when a numeric
column exists, succeeding either way. -/
def correlationModule (df : DataFrame) : Except String (Option Block) :=
  if (numericCols df).length > 0 then Except.ok (some (Block.corr (corrMatrix df)))
  else Except.ok none

/-- The six modules, in the order `analyze` invokes them. -/
def modulesList : List AnalysisModule :=
  [("basic info", basicInfoModule),
   ("missing values", missingValuesModule),
   ("duplicates", duplicatesModule),
   ("distribution", distributionModule),
   ("outliers", outliersModule),
   ("correlation", correlationModule)]

/-- Outcome of one guarded module invocation: the module name, the block it
wrote (if any), and the diagnostic it logged (if it failed). -/
structure ModuleOutcome where
  name : String
  block? : Option Block
  log? : Option String
deriving DecidableEq

/-- The `try/except` wrapper around one module body: a raised error is caught
and turned into a logged diagnostic naming the module, never propagated. -/
def runGuarded (df : DataFrame) (m : AnalysisModule) : ModuleOutcome :=
  match m.2 df with
  | Except.ok b => ⟨m.1, b, none⟩
  | Except.error e =>
      ⟨m.1, none, some ("Warning: Error in " ++ m.1 ++ " analysis: " ++ e)⟩

/-- Run a list of guarded modules in order, collecting every outcome. -/
def runAll (ms : List AnalysisModule) (df : DataFrame) : List ModuleOutcome :=
  ms.map (runGuarded df)

/-- The pipeline `analyze`: all six modules, each behind its guard. -/
def analyze (df : DataFrame) : List ModuleOutcome :=
  runAll modulesList df

/-! ### Concrete tables used as witnesses -/

/-- A one-column, zero-row table (a header-only CSV). -/
def dfNoRows : DataFrame :=
  ⟨[⟨"a", ColType.object, []⟩], 0⟩

/-- A zero-column table. -/
def dfNoCols : DataFrame :=
  ⟨[], 0⟩

/-- A numeric column with three equal values, one outlier value and one null,
inside a five-row table. -/
def colFive : Column :=
  ⟨"v", ColType.numeric, [Cell.num 0, Cell.num 0, Cell.num 0, Cell.num 100, Cell.null]⟩

/-- The five-row witness table. -/
def dfFive : DataFrame :=
  ⟨[colFive], 5⟩

/-- A four-row table with one null in its only column. -/
def dfFour : DataFrame :=
  ⟨[⟨"v", ColType.numeric, [Cell.num 1, Cell.null, Cell.num 1, Cell.num 2]⟩], 4⟩

/-- A numeric column with four equal values, one larger value and one null. -/
def colSix : Column :=
  ⟨"v", ColType.numeric,
    [Cell.num 0, Cell.num 0, Cell.num 0, Cell.num 0, Cell.num 100, Cell.null]⟩

/-- A constant numeric column with six values. -/
def colConst : Column :=
  ⟨"c", ColType.numeric,
    [Cell.num 5, Cell.num 5, Cell.num 5, Cell.num 5, Cell.num 5, Cell.num 5]⟩

/-- The six-row witness table holding `colSix` and `colConst`. -/
def dfSix : DataFrame :=
  ⟨[colSix, colConst], 6⟩

/-- A table whose single column has four duplicated rows. -/
def dfDupW : DataFrame :=
  ⟨[⟨"v", ColType.numeric, [Cell.num 1, Cell.null, Cell.num 1, Cell.null]⟩], 4⟩

/-- A table with exactly one numeric column. -/
def dfOneNum : DataFrame :=
  ⟨[⟨"a", ColType.numeric, [Cell.num 1, Cell.num 2]⟩], 2⟩

/-- A numeric column with exactly two distinct non-null values. -/
def colTwo : Column :=
  ⟨"t", ColType.numeric, [Cell.num 1, Cell.num 2]⟩

/-- A zero-variance numeric column with four values. -/
def colW5 : Column :=
  ⟨"w", ColType.numeric, [Cell.num 5, Cell.num 5, Cell.num 5, Cell.num 5]⟩

/-- A strictly increasing three-value numeric column. -/
def colA : Column :=
  ⟨"a", ColType.numeric, [Cell.num 1, Cell.num 2, Cell.num 3]⟩

/-- A constant three-value numeric column. -/
def colB : Column :=
  ⟨"b", ColType.numeric, [Cell.num 4, Cell.num 4, Cell.num 4]⟩

/-- The three-row correlation witness table. -/
def dfCorr : DataFrame :=
  ⟨[colA, colB], 3⟩

/-! ### Theorems -/

/-- Claim C4: for every table with at least one row, row i of the Missing
Values sheet carries the column's name, its null-cell count (stated here as an
independent `countP` over the raw cells), and the percentage
`nullCount / rowCount * 100` rounded to 2 decimal places. -/
theorem missing_values_report_correct (df : DataFrame) (h0 : 0 < df.nrows)
    (i : ℕ) (hi : i < df.cols.length) :
    (missingRows df).getD i ⟨"", 0, none⟩ =
      ⟨(df.cols.getD i ⟨"", ColType.object, []⟩).name,
        (df.cols.getD i ⟨"", ColType.object, []⟩).cells.countP
          (fun x => decide (x = Cell.null)),
        some (round2
          ((((df.cols.getD i ⟨"", ColType.object, []⟩).cells.countP
              (fun x => decide (x = Cell.null))) : ℚ) / (df.nrows : ℚ) * 100))⟩ := by
  have hne : df.nrows ≠ 0 := Nat.pos_iff_ne_zero.mp h0
  simp only [missingRows, missingPct, nullCount, List.getD_eq_getElem?_getD,
    List.getElem?_map, List.getElem?_eq_getElem hi, Option.map_some',
    Option.getD_some, hne, ite_false, if_false]

/-- Witness for C4 at the four-row table: one null among four rows gives
count 1 and percentage 25. -/
theorem missing_values_report_correct_witness :
    (missingRows dfFour).getD 0 ⟨"", 0, none⟩ =
      ⟨"v", 1, some (round2 ((1 : ℚ) / (4 : ℚ) * 100))⟩ := by
  have h := missing_values_report_correct dfFour (by decide) 0 (by decide)
  rw [h]
  simp +decide only [dfFour, List.countP, List.countP.go, List.getD]
  norm_num

/-- Claim C2 counterexample: on the one-column zero-row table the Missing
Values sheet reports NaN (`none`) as the percentage, not the claimed 0. -/
theorem missing_pct_zero_rows_not_zero :
    dfNoRows.nrows = 0 ∧
    (missingRows dfNoRows).map MissingRow.pct = [none] ∧
    ((none : Option ℚ) ≠ some 0) := by
  refine ⟨rfl, ?_, by simp⟩
  simp [missingRows, missingPct, dfNoRows]

/-- Claim C2 (amended): on a zero-row table the Missing-Value module does not
raise — it returns its block normally — but the reported percentage of every
column is the NaN of the 0/0 division (`none`), not 0. -/
theorem missing_values_zero_rows_nan (df : DataFrame) (h : df.nrows = 0) :
    missingValuesModule df = Except.ok (some (Block.missing (missingRows df))) ∧
    ∀ r ∈ missingRows df, r.pct = none := by
  refine ⟨rfl, ?_⟩
  intro r hr
  simp only [missingRows, List.mem_map] at hr
  obtain ⟨c, _, rfl⟩ := hr
  simp [missingPct, h]

/-- Witness for the amended C2 at the concrete zero-row table. -/
theorem missing_values_zero_rows_nan_witness :
    missingValuesModule dfNoRows =
      Except.ok (some (Block.missing (missingRows dfNoRows))) ∧
    ∀ r ∈ missingRows dfNoRows, r.pct = none :=
  missing_values_zero_rows_nan dfNoRows rfl

/-- Counts of true and false flags partition a Bool list. -/
theorem count_true_add_count_false (l : List Bool) :
    l.count true + l.count false = l.length := by
  induction l with
  | nil => rfl
  | cons a t ih =>
    cases a <;> simp [List.count_cons] <;> omega

/-- `dupFlagsAux` produces one flag per row. -/
theorem dupFlagsAux_length (rows : List (List Cell)) :
    ∀ seen, (dupFlagsAux seen rows).length = rows.length := by
  induction rows with
  | nil => intro seen; rfl
  | cons r rs ih => intro seen; simp [dupFlagsAux, ih]

/-- Characterization of the `duplicated` flags: row i is flagged exactly when
it is in the initial seen set or equals an earlier row. -/
theorem dupFlagsAux_getD (rows : List (List Cell)) :
    ∀ (seen : List (List Cell)) (i : ℕ), i < rows.length →
      ((dupFlagsAux seen rows).getD i false = true ↔
        rows.getD i [] ∈ seen ∨ ∃ j, j < i ∧ rows.getD j [] = rows.getD i []) := by
  induction rows with
  | nil => intro seen i hi; simp at hi
  | cons r rs ih =>
    intro seen i hi
    cases i with
    | zero =>
      simp [dupFlagsAux]
    | succ k =>
      have hk : k < rs.length := by simpa using hi
      have hstep := ih (r :: seen) k hk
      simp only [dupFlagsAux, List.getD_cons_succ] at hstep ⊢
      rw [hstep]
      constructor
      · rintro (hmem | ⟨j, hj, hEq⟩)
        · rcases List.mem_cons.mp hmem with hEq | hmem2
          · exact Or.inr ⟨0, Nat.succ_pos k, by simpa using hEq.symm⟩
          · exact Or.inl hmem2
        · exact Or.inr ⟨j + 1, Nat.succ_lt_succ hj, by simpa using hEq⟩
      · rintro (hmem | ⟨j, hj, hEq⟩)
        · exact Or.inl (List.mem_cons_of_mem r hmem)
        · cases j with
          | zero =>
            simp only [List.getD_cons_zero] at hEq
            exact Or.inl (by rw [← hEq]; exact List.mem_cons_self r seen)
          | succ m =>
            exact Or.inr ⟨m, Nat.lt_of_succ_lt_succ hj, by simpa using hEq⟩

/-- Row i of `dfRows` is `dfRow df i` for an in-range index. -/
theorem dfRows_getD (df : DataFrame) (i : ℕ) (hi : i < df.nrows) :
    (dfRows df).getD i [] = dfRow df i := by
  simp [dfRows, List.getD_eq_getElem?_getD, List.getElem?_map,
    List.getElem?_range hi]

/-- Claim C3: `Total Duplicates + Total Unique Records` equals the table row
count, and a row is flagged duplicate exactly when an earlier row is equal to
it cell by cell (the model's cell equality makes null markers compare equal). -/
theorem duplicates_row_count_invariant (df : DataFrame) :
    dupCount df + uniqueCount df = df.nrows ∧
    ∀ i, i < df.nrows →
      ((dupFlags df).getD i false = true ↔
        ∃ j, j < i ∧ dfRow df j = dfRow df i) := by
  constructor
  · unfold dupCount uniqueCount dupFlags
    rw [count_true_add_count_false, dupFlagsAux_length]
    simp [dfRows]
  · intro i hi
    have hlen : i < (dfRows df).length := by simpa [dfRows] using hi
    have h := dupFlagsAux_getD (dfRows df) [] i hlen
    unfold dupFlags
    rw [h]
    constructor
    · rintro (hmem | ⟨j, hj, hEq⟩)
      · simp at hmem
      · refine ⟨j, hj, ?_⟩
        rw [← dfRows_getD df j (lt_trans hj hi), ← dfRows_getD df i hi]
        exact hEq
    · rintro ⟨j, hj, hEq⟩
      refine Or.inr ⟨j, hj, ?_⟩
      rw [dfRows_getD df j (lt_trans hj hi), dfRows_getD df i hi]
      exact hEq

/-- Witness for C3 at a table with two distinct rows, each occurring twice:
2 duplicates, 2 uniques, 4 rows, and row 2 is flagged as a duplicate of
row 0. -/
theorem duplicates_row_count_invariant_witness :
    (dupCount dfDupW + uniqueCount dfDupW = dfDupW.nrows ∧
      ((dupFlags dfDupW).getD 2 false = true ↔
        ∃ j, j < 2 ∧ dfRow dfDupW j = dfRow dfDupW 2)) ∧
    dupCount dfDupW = 2 ∧ uniqueCount dfDupW = 2 := by
  refine ⟨⟨(duplicates_row_count_invariant dfDupW).1,
    (duplicates_row_count_invariant dfDupW).2 2 (by decide)⟩, by decide, by decide⟩

/-- Evaluation rule for `quantile` once the sorted list and the floor of the
interpolation rank are known. -/
theorem quantile_eval (xs s : List ℚ) (p : ℚ) (i : ℕ) (hsort : sortQ xs = s)
    (hne : s.length ≠ 0) (hi : (⌊p * ((s.length : ℚ) - 1)⌋).toNat = i) :
    quantile xs p =
      some (s.getD i 0 + (p * ((s.length : ℚ) - 1) - (i : ℚ)) *
        (s.getD (i + 1) (s.getD i 0) - s.getD i 0)) := by
  simp only [quantile, hsort, hi]
  rw [if_neg hne]

/-- Bridge between counting flagged cells and counting flagged non-null
values: null cells never satisfy the fence predicate. -/
theorem countP_outside_nnVals (cells : List Cell) (l u : ℚ) :
    cells.countP (cellOutsideFences (some l) (some u)) =
      (nnVals cells).countP (fun v => decide (v < l) || decide (v > u)) := by
  induction cells with
  | nil => rfl
  | cons a t ih =>
    cases a <;>
      simp [List.countP_cons, cellOutsideFences, ih, nnVals, List.filterMap_cons]

/-- Claim C9: row i of the Outliers sheet divides the outlier count by the
whole-table row count (nulls included), not by the count of non-null values:
it is (name, count, round2 (count / nrows * 100)). -/
theorem outlier_percentage_total_rows (df : DataFrame) (h0 : 0 < df.nrows)
    (i : ℕ) (hi : i < (numericCols df).length) :
    (outlierRows df).getD i ⟨"", 0, none⟩ =
      ⟨((numericCols df).getD i ⟨"", ColType.object, []⟩).name,
        outlierCount ((numericCols df).getD i ⟨"", ColType.object, []⟩),
        some (round2
          ((outlierCount ((numericCols df).getD i ⟨"", ColType.object, []⟩) : ℚ)
            / (df.nrows : ℚ) * 100))⟩ := by
  have hne : df.nrows ≠ 0 := Nat.pos_iff_ne_zero.mp h0
  simp only [outlierRows, outlierPct, List.getD_eq_getElem?_getD,
    List.getElem?_map, List.getElem?_eq_getElem hi, Option.map_some',
    Option.getD_some, hne, ite_false, if_false]

/-- Sorted non-null values of the `colSix` witness column. -/
theorem sortQ_colSix : sortQ (nonNullNum colSix) = [0, 0, 0, 0, 100] := by
  simp [nonNullNum, nnVals, colSix, sortQ, List.insertionSort, List.orderedInsert]

/-- First quartile of the `colSix` witness column. -/
theorem q1_colSix : quantile (nonNullNum colSix) (1/4) = some 0 := by
  rw [quantile_eval (nonNullNum colSix) [0, 0, 0, 0, 100] (1/4) 1 sortQ_colSix
    (by decide) (by norm_num)]
  norm_num [List.getD]

/-- Third quartile of the `colSix` witness column. -/
theorem q3_colSix : quantile (nonNullNum colSix) (3/4) = some 0 := by
  rw [quantile_eval (nonNullNum colSix) [0, 0, 0, 0, 100] (3/4) 3 sortQ_colSix
    (by decide) (by norm_num; decide)]
  norm_num [List.getD]

/-- Fences of the `colSix` witness column are both 0. -/
theorem fences_colSix : lowerFence colSix = some 0 ∧ upperFence colSix = some 0 := by
  unfold lowerFence upperFence
  rw [q1_colSix, q3_colSix]
  norm_num

/-- The `colSix` witness column has exactly one value outside its fences. -/
theorem outlierCount_colSix : outlierCount colSix = 1 := by
  unfold outlierCount
  rw [fences_colSix.1, fences_colSix.2]
  decide

/-- Witness for C9 at the six-row table: 1 outlier among 5 non-null values,
but the percentage divides by the 6 table rows. -/
theorem outlier_percentage_total_rows_witness :
    (outlierRows dfSix).getD 0 ⟨"", 0, none⟩ =
      ⟨"v", 1, some (round2 ((1 : ℚ) / (6 : ℚ) * 100))⟩ ∧
    (nonNullNum colSix).length = 5 := by
  refine ⟨?_, by decide⟩
  have h := outlier_percentage_total_rows dfSix (by decide) 0 (by decide)
  have hcol : (numericCols dfSix).getD 0 ⟨"", ColType.object, []⟩ = colSix := by decide
  rw [h, hcol, outlierCount_colSix]
  simp only [dfSix, colSix]
  norm_num

/-- Every element of a sorted list comes from the unsorted one. -/
theorem mem_sortQ {xs : List ℚ} {x : ℚ} (h : x ∈ sortQ xs) : x ∈ xs :=
  (List.perm_insertionSort (fun a b => a ≤ b) xs).mem_iff.mp h

/-- Sorting preserves length. -/
theorem length_sortQ (xs : List ℚ) : (sortQ xs).length = xs.length :=
  List.length_insertionSort (fun a b => a ≤ b) xs

/-- The linear-interpolation quantile of a constant list is that constant,
for any probability between 0 and 1. -/
theorem quantile_const (xs : List ℚ) (v p : ℚ) (hne : xs ≠ [])
    (hall : ∀ x ∈ xs, x = v) (hp0 : 0 ≤ p) (hp1 : p ≤ 1) :
    quantile xs p = some v := by
  have hallS : ∀ x ∈ sortQ xs, x = v := fun x hx => hall x (mem_sortQ hx)
  have hn0 : (sortQ xs).length ≠ 0 := by
    have hpos := List.length_pos.mpr hne
    rw [length_sortQ]
    omega
  have hn1 : 1 ≤ (sortQ xs).length := Nat.one_le_iff_ne_zero.mpr hn0
  have hnn : (0 : ℚ) ≤ (((sortQ xs).length : ℚ)) - 1 := by
    have h1 : (1 : ℚ) ≤ ((sortQ xs).length : ℚ) := by exact_mod_cast hn1
    linarith
  have hub : p * (((sortQ xs).length : ℚ) - 1) ≤ ((sortQ xs).length : ℚ) - 1 := by
    calc p * (((sortQ xs).length : ℚ) - 1)
        ≤ 1 * (((sortQ xs).length : ℚ) - 1) :=
          mul_le_mul_of_nonneg_right hp1 hnn
      _ = ((sortQ xs).length : ℚ) - 1 := one_mul _
  have hfl : ((⌊p * (((sortQ xs).length : ℚ) - 1)⌋ : ℤ) : ℚ) ≤
      ((sortQ xs).length : ℚ) - 1 :=
    le_trans (Int.floor_le _) hub
  have hfl2 : ⌊p * (((sortQ xs).length : ℚ) - 1)⌋ ≤ ((sortQ xs).length : ℤ) - 1 := by
    exact_mod_cast hfl
  have hidx : (⌊p * (((sortQ xs).length : ℚ) - 1)⌋).toNat < (sortQ xs).length := by
    omega
  have hgetDi : (sortQ xs).getD (⌊p * (((sortQ xs).length : ℚ) - 1)⌋).toNat 0 = v := by
    rw [List.getD_eq_getElem?_getD, List.getElem?_eq_getElem hidx]
    exact hallS _ (List.getElem_mem hidx)
  have hgetDsucc : (sortQ xs).getD ((⌊p * (((sortQ xs).length : ℚ) - 1)⌋).toNat + 1)
      ((sortQ xs).getD (⌊p * (((sortQ xs).length : ℚ) - 1)⌋).toNat 0) = v := by
    rcases Nat.lt_or_ge ((⌊p * (((sortQ xs).length : ℚ) - 1)⌋).toNat + 1)
      (sortQ xs).length with hlt | hge
    · rw [List.getD_eq_getElem?_getD, List.getElem?_eq_getElem hlt]
      exact hallS _ (List.getElem_mem hlt)
    · rw [List.getD_eq_getElem?_getD, List.getElem?_eq_none (by omega),
        Option.getD_none]
      exact hgetDi
  rw [quantile_eval xs (sortQ xs) p _ rfl hn0 rfl, hgetDsucc, hgetDi]
  congr 1
  ring

/-- Claim C5: with defined quartiles, a cell is counted as an outlier exactly
when it is a non-null value strictly below `Q1 - 1.5*IQR` or strictly above
`Q3 + 1.5*IQR` (null cells are never counted); and a column whose non-null
values are all equal has both quartiles equal to that value (IQR = 0) and
outlier count 0. -/
theorem outlier_fence_characterization (df : DataFrame) (c : Column)
    (hc : c ∈ numericCols df) :
    (∀ q1 q3, quantile (nonNullNum c) (1/4) = some q1 →
        quantile (nonNullNum c) (3/4) = some q3 →
        outlierCount c = (nonNullNum c).countP
          (fun v => decide (v < q1 - 3/2 * (q3 - q1)) ||
            decide (v > q3 + 3/2 * (q3 - q1)))) ∧
    (∀ v, nonNullNum c ≠ [] → (∀ x ∈ nonNullNum c, x = v) →
        quantile (nonNullNum c) (1/4) = some v ∧
        quantile (nonNullNum c) (3/4) = some v ∧
        outlierCount c = 0) := by
  constructor
  · intro q1 q3 h1 h3
    have hl : lowerFence c = some (q1 - 3/2 * (q3 - q1)) := by
      unfold lowerFence
      rw [h1, h3]
    have hu : upperFence c = some (q3 + 3/2 * (q3 - q1)) := by
      unfold upperFence
      rw [h1, h3]
    unfold outlierCount
    rw [hl, hu]
    exact countP_outside_nnVals c.cells _ _
  · intro v hne hall
    have h1 : quantile (nonNullNum c) (1/4) = some v :=
      quantile_const _ v _ hne hall (by norm_num) (by norm_num)
    have h3 : quantile (nonNullNum c) (3/4) = some v :=
      quantile_const _ v _ hne hall (by norm_num) (by norm_num)
    refine ⟨h1, h3, ?_⟩
    have hl : lowerFence c = some (v - 3/2 * (v - v)) := by
      unfold lowerFence
      rw [h1, h3]
    have hu : upperFence c = some (v + 3/2 * (v - v)) := by
      unfold upperFence
      rw [h1, h3]
    unfold outlierCount
    rw [hl, hu, countP_outside_nnVals c.cells]
    rw [List.countP_eq_zero]
    intro a ha
    have hav : a = v := hall a ha
    subst hav
    simp only [Bool.or_eq_true, decide_eq_true_eq]
    rintro (hlt | hgt)
    · nlinarith
    · nlinarith

/-- Witness for C5: the six-row table's `colSix` satisfies the fence
characterization at its quartiles (both 0), and its constant column `colConst`
has both quartiles 5 and no outlier. -/
theorem outlier_fence_characterization_witness :
    (outlierCount colSix = (nonNullNum colSix).countP
      (fun v => decide (v < 0 - 3/2 * ((0 : ℚ) - 0)) ||
        decide (v > 0 + 3/2 * ((0 : ℚ) - 0)))) ∧
    quantile (nonNullNum colConst) (1/4) = some 5 ∧
    quantile (nonNullNum colConst) (3/4) = some 5 ∧
    outlierCount colConst = 0 := by
  have h2 := (outlier_fence_characterization dfSix colConst (by decide)).2 5
    (by decide) (by decide)
  exact ⟨(outlier_fence_characterization dfSix colSix (by decide)).1 0 0
    q1_colSix q3_colSix, h2.1, h2.2.1, h2.2.2⟩

/-- Claim C6 counterexample: with fewer than 2 numeric columns the module
never reports a present-and-empty matrix.  With exactly 1 numeric column
(`dfOneNum`) the block is present with a non-empty 1×1 matrix, and with 0
numeric columns (`dfNoRows`) no correlation block is emitted at all. -/
theorem correlation_single_numeric_not_empty :
    (numericCols dfOneNum).length = 1 ∧
    correlationModule dfOneNum =
      Except.ok (some (Block.corr (corrMatrix dfOneNum))) ∧
    (corrMatrix dfOneNum).length = 1 ∧
    (numericCols dfNoRows).length = 0 ∧
    correlationModule dfNoRows = Except.ok none := by
  refine ⟨rfl, ?_, rfl, rfl, ?_⟩
  · unfold correlationModule
    rw [if_pos (by decide)]
  · unfold correlationModule
    rw [if_neg (by decide)]

/-- Claim C6 (amended): the Correlation module never fails; with 0 numeric
columns it emits no block at all (absent, not empty), and with any positive
number n of numeric columns — including n = 1 — it emits an n×n matrix. -/
theorem correlation_few_numeric_behavior (df : DataFrame) :
    ((numericCols df).length = 0 → correlationModule df = Except.ok none) ∧
    (0 < (numericCols df).length →
      correlationModule df = Except.ok (some (Block.corr (corrMatrix df))) ∧
      (corrMatrix df).length = (numericCols df).length) := by
  constructor
  · intro h
    unfold correlationModule
    rw [if_neg (by omega)]
  · intro h
    unfold correlationModule
    rw [if_pos (by omega)]
    exact ⟨rfl, List.length_map _ _⟩

/-- Witness for the amended C6 at the concrete tables with 0 and 1 numeric
columns. -/
theorem correlation_few_numeric_behavior_witness :
    correlationModule dfNoRows = Except.ok none ∧
    correlationModule dfOneNum =
      Except.ok (some (Block.corr (corrMatrix dfOneNum))) ∧
    (corrMatrix dfOneNum).length = 1 := by
  refine ⟨(correlation_few_numeric_behavior dfNoRows).1 (by decide), ?_, ?_⟩
  · exact ((correlation_few_numeric_behavior dfOneNum).2 (by decide)).1
  · exact ((correlation_few_numeric_behavior dfOneNum).2 (by decide)).2

/-- Claim C7 counterexample: the column `colTwo` has 2 non-null values and
nonzero variance, so the claim says skewness is computed — yet the module
reports it as NaN (pandas `nanskew` needs at least 3 values). -/
theorem skew_two_values_not_computed :
    (nonNullNum colTwo).length = 2 ∧
    centeredSum ((nonNullNum colTwo).sum / ((nonNullNum colTwo).length : ℚ)) 2
      (nonNullNum colTwo) ≠ 0 ∧
    skewEnc (nonNullNum colTwo) = none := by
  refine ⟨by decide, ?_, by simp [skewEnc, nonNullNum, nnVals, colTwo]⟩
  have hv : nonNullNum colTwo = [1, 2] := by decide
  rw [hv]
  norm_num [centeredSum]

/-- Claim C7 (amended): per numeric column, skewness is NaN exactly when the
column has fewer than 3 non-null values, kurtosis is NaN exactly when it has
fewer than 4; with enough values, zero variance yields the value 0 (not NaN)
for both; mean and median are computed whenever at least 1 non-null value
exists. -/
theorem distribution_not_computed_conditions (c : Column) :
    (skewEnc (nonNullNum c) = none ↔ (nonNullNum c).length < 3) ∧
    (kurtQ (nonNullNum c) = none ↔ (nonNullNum c).length < 4) ∧
    (3 ≤ (nonNullNum c).length →
      centeredSum ((nonNullNum c).sum / ((nonNullNum c).length : ℚ)) 2
        (nonNullNum c) = 0 →
      skewEnc (nonNullNum c) = some 0) ∧
    (4 ≤ (nonNullNum c).length →
      centeredSum ((nonNullNum c).sum / ((nonNullNum c).length : ℚ)) 2
        (nonNullNum c) = 0 →
      kurtQ (nonNullNum c) = some 0) ∧
    (1 ≤ (nonNullNum c).length →
      (meanQ (nonNullNum c)).isSome ∧ (medianQ (nonNullNum c)).isSome) := by
  refine ⟨?_, ?_, ?_, ?_, ?_⟩
  · unfold skewEnc
    rcases Nat.lt_or_ge (nonNullNum c).length 3 with h | h
    · simp [h]
    · rw [if_neg (by omega)]
      constructor
      · intro hcon
        by_cases hm : centeredSum ((nonNullNum c).sum / ((nonNullNum c).length : ℚ)) 2
            (nonNullNum c) = 0
        · rw [if_pos hm] at hcon
          exact absurd hcon (by simp)
        · rw [if_neg hm] at hcon
          exact absurd hcon (by simp)
      · intro hcon
        omega
  · unfold kurtQ
    rcases Nat.lt_or_ge (nonNullNum c).length 4 with h | h
    · simp [h]
    · rw [if_neg (by omega)]
      constructor
      · intro hcon
        by_cases hm : (((nonNullNum c).length : ℚ) - 2) * (((nonNullNum c).length : ℚ) - 3) *
            (centeredSum ((nonNullNum c).sum / ((nonNullNum c).length : ℚ)) 2
              (nonNullNum c)) ^ 2 = 0
        · rw [if_pos hm] at hcon
          exact absurd hcon (by simp)
        · rw [if_neg hm] at hcon
          exact absurd hcon (by simp)
      · intro hcon
        omega
  · intro hlen hm
    unfold skewEnc
    rw [if_neg (by omega), if_pos hm]
  · intro hlen hm
    unfold kurtQ
    rw [if_neg (by omega), if_pos (by rw [hm]; ring)]
  · intro hlen
    constructor
    · unfold meanQ
      rw [if_neg (by omega)]
      rfl
    · unfold medianQ
      have hns : (sortQ (nonNullNum c)).length ≠ 0 := by
        rw [length_sortQ]
        omega
      rw [if_neg hns]
      rcases Nat.decEq ((sortQ (nonNullNum c)).length % 2) 1 with h | h
      · simp only [h]
        rfl
      · rw [if_pos h]
        rfl

/-- Witness for the amended C7: the two-value column has NaN skewness, the
four-value constant column has kurtosis 0 (zero variance but not NaN), and
mean and median of the constant column are present. -/
theorem distribution_not_computed_conditions_witness :
    (skewEnc (nonNullNum colTwo) = none ↔ (nonNullNum colTwo).length < 3) ∧
    kurtQ (nonNullNum colW5) = some 0 ∧
    (meanQ (nonNullNum colW5)).isSome ∧ (medianQ (nonNullNum colW5)).isSome := by
  refine ⟨(distribution_not_computed_conditions colTwo).1, ?_, ?_⟩
  · refine (distribution_not_computed_conditions colW5).2.2.2.1 (by decide) ?_
    have hv : nonNullNum colW5 = [5, 5, 5, 5] := by decide
    rw [hv]
    norm_num [centeredSum]
  · exact (distribution_not_computed_conditions colW5).2.2.2.2 (by decide)

/-- Claim C1: the pipeline attempts every module exactly once and always
completes.  For any module list and any table, the guarded run yields one
outcome per module, in order; a module raising an error has its block absent
and a diagnostic logged with the module name and cause, a succeeding module
has its output recorded and nothing logged — each outcome depending only on
its own module, so all remaining modules still run even if every module
fails.  The actual pipeline is this guarded run over its six fixed modules. -/
theorem analyze_isolates_module_failures (ms : List AnalysisModule) (df : DataFrame) :
    (runAll ms df).length = ms.length ∧
    (∀ i, i < ms.length → ∀ e,
      (ms.getD i ("", fun _ => Except.ok none)).2 df = Except.error e →
      (runAll ms df).getD i ⟨"", none, none⟩ =
        ⟨(ms.getD i ("", fun _ => Except.ok none)).1, none,
          some ("Warning: Error in " ++ (ms.getD i ("", fun _ => Except.ok none)).1
            ++ " analysis: " ++ e)⟩) ∧
    (∀ i, i < ms.length → ∀ b,
      (ms.getD i ("", fun _ => Except.ok none)).2 df = Except.ok b →
      (runAll ms df).getD i ⟨"", none, none⟩ =
        ⟨(ms.getD i ("", fun _ => Except.ok none)).1, b, none⟩) ∧
    analyze df = runAll modulesList df ∧
    modulesList.map Prod.fst =
      ["basic info", "missing values", "duplicates", "distribution",
        "outliers", "correlation"] := by
  refine ⟨List.length_map _ _, ?_, ?_, rfl, rfl⟩
  · intro i hi e he
    have hget : (runAll ms df).getD i ⟨"", none, none⟩ =
        runGuarded df (ms.getD i ("", fun _ => Except.ok none)) := by
      unfold runAll
      rw [List.getD_eq_getElem?_getD, List.getElem?_map,
        List.getElem?_eq_getElem hi, Option.map_some', Option.getD_some,
        List.getD_eq_getElem?_getD, List.getElem?_eq_getElem hi, Option.getD_some]
    rw [hget]
    unfold runGuarded
    rw [he]
  · intro i hi b hb
    have hget : (runAll ms df).getD i ⟨"", none, none⟩ =
        runGuarded df (ms.getD i ("", fun _ => Except.ok none)) := by
      unfold runAll
      rw [List.getD_eq_getElem?_getD, List.getElem?_map,
        List.getElem?_eq_getElem hi, Option.map_some', Option.getD_some,
        List.getD_eq_getElem?_getD, List.getElem?_eq_getElem hi, Option.getD_some]
    rw [hget]
    unfold runGuarded
    rw [hb]

/-- Witness for C1: on the zero-column table the basic-info module raises and
its block is absent with the diagnostic logged, while the next module still
runs and succeeds; all six modules produce an outcome. -/
theorem analyze_isolates_module_failures_witness :
    (runAll modulesList dfNoCols).length = 6 ∧
    (runAll modulesList dfNoCols).getD 0 ⟨"", none, none⟩ =
      ⟨"basic info", none,
        some ("Warning: Error in " ++ "basic info" ++ " analysis: "
          ++ "Cannot describe a DataFrame without columns")⟩ ∧
    (runAll modulesList dfNoCols).getD 1 ⟨"", none, none⟩ =
      ⟨"missing values", some (Block.missing (missingRows dfNoCols)), none⟩ := by
  refine ⟨(analyze_isolates_module_failures modulesList dfNoCols).1, ?_, ?_⟩
  · exact (analyze_isolates_module_failures modulesList dfNoCols).2.1 0
      (by decide) "Cannot describe a DataFrame without columns" rfl
  · exact (analyze_isolates_module_failures modulesList dfNoCols).2.2.1 1
      (by decide) (some (Block.missing (missingRows dfNoCols))) rfl

/-- Claim C10: the Data Types and Basic Statistics sheets live in one guarded
region — the block carries both, it is emitted only when `describe` succeeds,
and when `describe` raises (as it does on a zero-column table, where the
dtype summary itself is perfectly computable) the whole block is absent and
the failure is logged. -/
theorem basic_info_all_or_nothing (df : DataFrame) :
    (∀ e, describe df = Except.error e →
      (runGuarded df ("basic info", basicInfoModule)).block? = none ∧
      (runGuarded df ("basic info", basicInfoModule)).log? =
        some ("Warning: Error in " ++ "basic info" ++ " analysis: " ++ e)) ∧
    (∀ st, describe df = Except.ok st →
      (runGuarded df ("basic info", basicInfoModule)).block? =
        some (Block.basicInfo (dtypesInfo df) st)) ∧
    (df.cols = [] →
      describe df = Except.error "Cannot describe a DataFrame without columns") := by
  refine ⟨?_, ?_, ?_⟩
  · intro e he
    simp only [runGuarded, basicInfoModule]
    rw [he]
    exact ⟨rfl, rfl⟩
  · intro st hst
    simp only [runGuarded, basicInfoModule]
    rw [hst]
  · intro h
    unfold describe
    rw [if_pos (by rw [h]; rfl)]

/-- Witness for C10 at the zero-column table: `describe` fails there, the
whole basic-info block is absent (no Data Types sheet either, although
`dtypesInfo` itself is the well-defined empty summary), and the cause is
logged. -/
theorem basic_info_all_or_nothing_witness :
    ((runGuarded dfNoCols ("basic info", basicInfoModule)).block? = none ∧
      (runGuarded dfNoCols ("basic info", basicInfoModule)).log? =
        some ("Warning: Error in " ++ "basic info" ++ " analysis: "
          ++ "Cannot describe a DataFrame without columns")) ∧
    dtypesInfo dfNoCols = [] := by
  refine ⟨(basic_info_all_or_nothing dfNoCols).1 _
    ((basic_info_all_or_nothing dfNoCols).2.2 rfl), rfl⟩

/-- A sum of squared deviations is nonnegative. -/
theorem sum_sq_nonneg (l : List ℚ) (m : ℚ) :
    0 ≤ (l.map (fun z => (z - m) ^ 2)).sum := by
  apply List.sum_nonneg
  intro x hx
  obtain ⟨z, _, rfl⟩ := List.mem_map.mp hx
  positivity

/-- A sum of squared deviations vanishes exactly when every element equals
the center. -/
theorem sum_sq_eq_zero_iff (l : List ℚ) (m : ℚ) :
    (l.map (fun z => (z - m) ^ 2)).sum = 0 ↔ ∀ z ∈ l, z = m := by
  induction l with
  | nil => simp
  | cons a t ih =>
    simp only [List.map_cons, List.sum_cons, List.mem_cons]
    constructor
    · intro h
      have h1 : (0 : ℚ) ≤ (a - m) ^ 2 := sq_nonneg _
      have h2 : (0 : ℚ) ≤ (t.map (fun z => (z - m) ^ 2)).sum := sum_sq_nonneg t m
      have ha : (a - m) ^ 2 = 0 := by linarith
      have ht : (t.map (fun z => (z - m) ^ 2)).sum = 0 := by linarith
      refine fun z hz => ?_
      rcases hz with rfl | hz
      · have := pow_eq_zero_iff (n := 2) (by norm_num) |>.mp ha
        linarith [this]
      · exact ih.mp ht z hz
    · intro h
      have ha : a = m := h a (Or.inl rfl)
      have ht : (t.map (fun z => (z - m) ^ 2)).sum = 0 :=
        ih.mpr (fun z hz => h z (Or.inr hz))
      rw [ha, ht, sub_self]
      ring

/-- The sum of a constant list. -/
theorem sum_const_list (l : List ℚ) (v : ℚ) (h : ∀ x ∈ l, x = v) :
    l.sum = (l.length : ℚ) * v := by
  induction l with
  | nil => simp
  | cons a t ih =>
    have ha : a = v := h a (List.mem_cons_self a t)
    have ht : t.sum = (t.length : ℚ) * v :=
      ih (fun x hx => h x (List.mem_cons_of_mem a hx))
    simp only [List.sum_cons, List.length_cons, ha, ht]
    push_cast
    ring

/-- The mean of a nonempty constant list is that constant. -/
theorem mean_const (l : List ℚ) (v : ℚ) (hne : l.length ≠ 0)
    (h : ∀ x ∈ l, x = v) : l.sum / (l.length : ℚ) = v := by
  rw [sum_const_list l v h]
  have : ((l.length : ℚ)) ≠ 0 := Nat.cast_ne_zero.mpr hne
  field_simp

/-- Swapping both columns swaps the complete-observation pairs. -/
theorem pairedVals_swap (x y : List Cell) :
    pairedVals y x = (pairedVals x y).map Prod.swap := by
  unfold pairedVals
  rw [← List.zip_swap x y, List.filterMap_map, List.map_filterMap]
  congr 1
  funext pr
  rcases pr with ⟨a, b⟩
  cases a <;> cases b <;> rfl

/-- Pairing a column with itself duplicates its non-null values. -/
theorem pairedVals_self (x : List Cell) :
    pairedVals x x = (nnVals x).map (fun a => (a, a)) := by
  induction x with
  | nil => rfl
  | cons c t ih =>
    cases c <;>
      simp only [pairedVals, nnVals, List.zip_cons_cons, List.filterMap_cons,
        List.map_cons] at ih ⊢ <;>
      rw [ih]

/-- The first component of a complete-observation pair is a non-null value of
the first column. -/
theorem pairedVals_fst_mem (x : List Cell) :
    ∀ (y : List Cell) (p : ℚ × ℚ), p ∈ pairedVals x y → p.1 ∈ nnVals x := by
  induction x with
  | nil =>
    intro y p hp
    simp [pairedVals] at hp
  | cons c t ih =>
    intro y p hp
    cases y with
    | nil => simp [pairedVals] at hp
    | cons d u =>
      simp only [pairedVals, List.zip_cons_cons, List.filterMap_cons] at hp
      cases c with
      | null =>
        simp only [nnVals, List.filterMap_cons]
        exact ih u p hp
      | str s =>
        simp only [nnVals, List.filterMap_cons]
        exact ih u p hp
      | num a =>
        cases d with
        | null =>
          simp only [nnVals, List.filterMap_cons]
          exact List.mem_cons_of_mem a (ih u p hp)
        | str s =>
          simp only [nnVals, List.filterMap_cons]
          exact List.mem_cons_of_mem a (ih u p hp)
        | num b =>
          simp only [nnVals, List.filterMap_cons]
          rcases List.mem_cons.mp hp with rfl | hp2
          · exact List.mem_cons_self a _
          · exact List.mem_cons_of_mem a (ih u p hp2)

/-- Composing a first-component deviation square with the swap. -/
theorem comp_swap_sq1 (A : ℚ) :
    ((fun p : ℚ × ℚ => (p.1 - A) ^ 2) ∘ Prod.swap) = (fun p => (p.2 - A) ^ 2) :=
  rfl

/-- Composing a second-component deviation square with the swap. -/
theorem comp_swap_sq2 (A : ℚ) :
    ((fun p : ℚ × ℚ => (p.2 - A) ^ 2) ∘ Prod.swap) = (fun p => (p.1 - A) ^ 2) :=
  rfl

/-- Composing the cross-deviation product with the swap. -/
theorem comp_swap_mul (A B : ℚ) :
    ((fun p : ℚ × ℚ => (p.1 - A) * (p.2 - B)) ∘ Prod.swap) =
      (fun p => (p.2 - A) * (p.1 - B)) :=
  rfl

/-- The Pearson kernel is invariant under swapping each pair: symmetry of the
correlation computation. -/
theorem corrEncAux_swap (ps : List (ℚ × ℚ)) :
    corrEncAux (ps.map Prod.swap) = corrEncAux ps := by
  by_cases h0 : ps.length = 0
  · simp only [corrEncAux, List.length_map, h0, if_pos]
  · simp only [corrEncAux, List.length_map, List.map_map, Function.comp_def,
      Prod.fst_swap, Prod.snd_swap]
    rw [if_neg h0, if_neg h0]
    have hmul : (fun p : ℚ × ℚ =>
        (p.2 - (ps.map (fun p : ℚ × ℚ => p.2)).sum / (ps.length : ℚ)) *
          (p.1 - (ps.map (fun p : ℚ × ℚ => p.1)).sum / (ps.length : ℚ))) =
        (fun p : ℚ × ℚ =>
          (p.1 - (ps.map (fun p : ℚ × ℚ => p.1)).sum / (ps.length : ℚ)) *
            (p.2 - (ps.map (fun p : ℚ × ℚ => p.2)).sum / (ps.length : ℚ))) :=
      funext fun p => mul_comm _ _
    rw [hmul]
    rw [mul_comm ((ps.map (fun p : ℚ × ℚ =>
      (p.2 - (ps.map (fun p : ℚ × ℚ => p.2)).sum / (ps.length : ℚ)) ^ 2)).sum)
      ((ps.map (fun p : ℚ × ℚ =>
        (p.1 - (ps.map (fun p : ℚ × ℚ => p.1)).sum / (ps.length : ℚ)) ^ 2)).sum)]

/-- The correlation entry is symmetric in its two columns. -/
theorem corrEnc_comm (x y : List Cell) : corrEnc x y = corrEnc y x := by
  unfold corrEnc
  rw [pairedVals_swap x y, corrEncAux_swap]

/-- Multiplying a deviation with itself is its square, as map functions. -/
theorem mul_self_fun (m : ℚ) :
    (fun a : ℚ => (a - m) * (a - m)) = (fun a => (a - m) ^ 2) :=
  funext fun a => (pow_two _).symm

/-- A column with nonzero variance has diagonal correlation exactly 1 (the
signed-square encoding of the value 1.0). -/
theorem corrEnc_self (x : List Cell) (hvar : varSumCells x ≠ 0) :
    corrEnc x x = some 1 := by
  have hne : (nnVals x).length ≠ 0 := by
    intro hlen
    apply hvar
    unfold varSumCells centeredSum
    rw [List.length_eq_zero.mp hlen]
    simp
  unfold corrEnc
  rw [pairedVals_self]
  simp only [corrEncAux, List.length_map, List.map_map, Function.comp_def]
  rw [if_neg hne]
  simp only [List.map_id']
  rw [mul_self_fun]
  have hSvar : ((nnVals x).map
      (fun a => (a - (nnVals x).sum / ((nnVals x).length : ℚ)) ^ 2)).sum =
      varSumCells x := rfl
  rw [hSvar]
  rw [if_neg (mul_ne_zero hvar hvar)]
  have hS0 : (0 : ℚ) ≤ varSumCells x := by
    rw [← hSvar]
    exact sum_sq_nonneg _ _
  rw [abs_of_nonneg hS0, div_self (mul_ne_zero hvar hvar)]

/-- Every correlation entry whose first column has zero variance is NaN. -/
theorem corrEnc_zero_var_left (x y : List Cell) (h : varSumCells x = 0) :
    corrEnc x y = none := by
  unfold corrEnc
  by_cases hps : (pairedVals x y).length = 0
  · simp [corrEncAux, hps]
  · simp only [corrEncAux]
    rw [if_neg hps]
    have hconst : ∀ z ∈ nnVals x,
        z = (nnVals x).sum / ((nnVals x).length : ℚ) :=
      (sum_sq_eq_zero_iff (nnVals x) ((nnVals x).sum / ((nnVals x).length : ℚ))).mp h
    have hfst : ∀ p ∈ pairedVals x y,
        p.1 = (nnVals x).sum / ((nnVals x).length : ℚ) :=
      fun p hp => hconst _ (pairedVals_fst_mem x y p hp)
    have hmx : ((pairedVals x y).map Prod.fst).sum /
        (((pairedVals x y).length : ℚ)) =
        (nnVals x).sum / ((nnVals x).length : ℚ) := by
      rw [show (pairedVals x y).length = ((pairedVals x y).map Prod.fst).length
        from (List.length_map _ _).symm]
      apply mean_const
      · rw [List.length_map]
        exact hps
      · intro z hz
        obtain ⟨p, hp, rfl⟩ := List.mem_map.mp hz
        exact hfst p hp
    rw [hmx]
    have hsxx : ((pairedVals x y).map
        (fun p => (p.1 - (nnVals x).sum / ((nnVals x).length : ℚ)) ^ 2)).sum
        = 0 := by
      apply List.sum_eq_zero
      intro z hz
      obtain ⟨p, hp, rfl⟩ := List.mem_map.mp hz
      rw [hfst p hp, sub_self]
      ring
    rw [hsxx, zero_mul, if_pos rfl]

/-- Every correlation entry whose second column has zero variance is NaN. -/
theorem corrEnc_zero_var_right (x y : List Cell) (h : varSumCells y = 0) :
    corrEnc x y = none := by
  rw [corrEnc_comm]
  exact corrEnc_zero_var_left y x h

/-- Entry (i, j) of the correlation matrix is the pairwise Pearson entry of
the i-th and j-th numeric columns. -/
theorem corrMatrix_entry (df : DataFrame) (i j : ℕ)
    (hi : i < (numericCols df).length) (hj : j < (numericCols df).length) :
    ((corrMatrix df).getD i []).getD j none =
      corrEnc ((numericCols df).getD i ⟨"", ColType.object, []⟩).cells
        ((numericCols df).getD j ⟨"", ColType.object, []⟩).cells := by
  have hgi : (numericCols df).getD i ⟨"", ColType.object, []⟩ = (numericCols df)[i] := by
    rw [List.getD_eq_getElem?_getD, List.getElem?_eq_getElem hi, Option.getD_some]
  have hgj : (numericCols df).getD j ⟨"", ColType.object, []⟩ = (numericCols df)[j] := by
    rw [List.getD_eq_getElem?_getD, List.getElem?_eq_getElem hj, Option.getD_some]
  have hrow : (corrMatrix df).getD i [] =
      List.map (fun y => corrEnc ((numericCols df)[i]).cells y.cells) (numericCols df) := by
    unfold corrMatrix
    rw [List.getD_eq_getElem?_getD, List.getElem?_map, List.getElem?_eq_getElem hi,
      Option.map_some', Option.getD_some]
  rw [hgi, hgj, hrow]
  rw [List.getD_eq_getElem?_getD, List.getElem?_map, List.getElem?_eq_getElem hj,
    Option.map_some', Option.getD_some]

/-- Claim C8: the correlation matrix is symmetric, its diagonal entry is
exactly 1.0 (encoded as `some 1`) for every numeric column with nonzero
variance, and every entry on a row or column of a zero-variance numeric
column is NaN (`none`), not a number. -/
theorem correlation_matrix_properties (df : DataFrame) :
    (∀ i j, i < (numericCols df).length → j < (numericCols df).length →
      ((corrMatrix df).getD i []).getD j none =
        ((corrMatrix df).getD j []).getD i none) ∧
    (∀ i, i < (numericCols df).length →
      colVarSum ((numericCols df).getD i ⟨"", ColType.object, []⟩) ≠ 0 →
      ((corrMatrix df).getD i []).getD i none = some 1) ∧
    (∀ i j, i < (numericCols df).length → j < (numericCols df).length →
      colVarSum ((numericCols df).getD i ⟨"", ColType.object, []⟩) = 0 →
      ((corrMatrix df).getD i []).getD j none = none ∧
      ((corrMatrix df).getD j []).getD i none = none) := by
  refine ⟨?_, ?_, ?_⟩
  · intro i j hi hj
    rw [corrMatrix_entry df i j hi hj, corrMatrix_entry df j i hj hi,
      corrEnc_comm]
  · intro i hi hvar
    rw [corrMatrix_entry df i i hi hi]
    exact corrEnc_self _ hvar
  · intro i j hi hj hvar
    rw [corrMatrix_entry df i j hi hj, corrMatrix_entry df j i hj hi]
    exact ⟨corrEnc_zero_var_left _ _ hvar, corrEnc_zero_var_right _ _ hvar⟩

/-- Witness for C8 at the two-numeric-column table `dfCorr`: the off-diagonal
entries agree, the nonzero-variance column has diagonal 1, and both entries
touching the constant column are NaN. -/
theorem correlation_matrix_properties_witness :
    ((corrMatrix dfCorr).getD 0 []).getD 1 none =
      ((corrMatrix dfCorr).getD 1 []).getD 0 none ∧
    ((corrMatrix dfCorr).getD 0 []).getD 0 none = some 1 ∧
    ((corrMatrix dfCorr).getD 1 []).getD 0 none = none ∧
    ((corrMatrix dfCorr).getD 0 []).getD 1 none = none := by
  have hvA : colVarSum ((numericCols dfCorr).getD 0 ⟨"", ColType.object, []⟩) ≠ 0 := by
    show colVarSum colA ≠ 0
    have h1 : nnVals colA.cells = [1, 2, 3] := by decide
    unfold colVarSum varSumCells
    rw [h1]
    norm_num [centeredSum]
  have hvB : colVarSum ((numericCols dfCorr).getD 1 ⟨"", ColType.object, []⟩) = 0 := by
    show colVarSum colB = 0
    have h1 : nnVals colB.cells = [4, 4, 4] := by decide
    unfold colVarSum varSumCells
    rw [h1]
    norm_num [centeredSum]
  exact ⟨(correlation_matrix_properties dfCorr).1 0 1 (by decide) (by decide),
    (correlation_matrix_properties dfCorr).2.1 0 (by decide) hvA,
    ((correlation_matrix_properties dfCorr).2.2 1 0 (by decide) (by decide) hvB).1,
    ((correlation_matrix_properties dfCorr).2.2 1 0 (by decide) (by decide) hvB).2⟩

end DQA
